import Mathlib

/-!
# Tilted wire protocol — verification of the TLV codec

Shallow embedding of the Tilted sensor/gateway wire protocol:

* `shared/include/tilted_protocol.h` — header layout constants,
  `tilted_readings_packet_size`, `tilted_decode_readings_view`;
* the packet builder `tilted_encode_readings_packet` (shared header);
* the value helper `TiltedValueHelper.scaleAndRound`;
* the reading-extraction switch of `EspNowReceiver::onRecv`
  (`gateway/src/espnow_receiver.cpp`) and the gateway's `round3`
  (`gateway/src/main.cpp`).

Byte buffers are `List Nat` (each entry one octet, little-endian multi-byte
fields, matching the packed structs on the little-endian MCU targets).
Machine integers are `Nat`/`Int` with explicit `% 2^w` where the code relies
on wrapping; C float quantities are modelled as exact rationals `ℚ`, and the
C library rounding primitives `lroundf`/`roundf` by their specified
round-half-away-from-zero semantics on `ℚ`.
-/

/-! ## Protocol constants (tilted_protocol.h) -/

def TILTED_PROTOCOL_VERSION : Nat := 1

def TILTED_MAGIC : Nat := 0x544C

def TILTED_MAX_NAME_LEN : Nat := 24

/-- `TiltedMsgType::Readings` as its `uint8_t` value. -/
def TILTED_MSGTYPE_READINGS : Nat := 1

/-- Size of the packed `TiltedReadingsHeader` (static_assert: 12 bytes). -/
def TILTED_HEADER_SIZE : Nat := 12

/-- Size of a packed `TiltedValueItem` (static_assert: 8 bytes). -/
def TILTED_ITEM_SIZE : Nat := 8

/-- The C helper `tilted_readings_packet_size(nameLen, itemCount)`: header +
name + items, 0 if the name is too long or the total would not fit the
`uint16_t` length. -/
def tilted_readings_packet_size (nameLen itemCount : Nat) : Nat :=
  if nameLen > TILTED_MAX_NAME_LEN then 0
  else if TILTED_HEADER_SIZE + nameLen + itemCount * TILTED_ITEM_SIZE > 0xFFFF then 0
  else TILTED_HEADER_SIZE + nameLen + itemCount * TILTED_ITEM_SIZE

/-! ## Two's-complement byte views -/

/-- Read a `uint8_t` byte as `int8_t` (two's complement). -/
def toInt8 (b : Nat) : Int :=
  if b < 128 then (b : Int) else (b : Int) - 256

/-- Read a 16-bit unsigned value as `int16_t` (two's complement). -/
def toInt16 (n : Nat) : Int :=
  if n < 32768 then (n : Int) else (n : Int) - 65536

/-- Read a 32-bit unsigned value as `int32_t` (two's complement). -/
def toInt32 (n : Nat) : Int :=
  if n < 2147483648 then (n : Int) else (n : Int) - 4294967296

/-- Little-endian bytes of a `uint16_t` value. -/
def u16le (n : Nat) : List Nat :=
  [n % 256, n / 256 % 256]

/-- Little-endian bytes of a `uint32_t` value. -/
def u32le (n : Nat) : List Nat :=
  [n % 256, n / 256 % 256, n / 65536 % 256, n / 16777216 % 256]

/-- The byte an `int8_t` occupies in memory (two's complement). -/
def i8byte (i : Int) : Nat :=
  (i % 256).toNat

/-- Little-endian bytes of an `int16_t` value (two's complement). -/
def i16le (i : Int) : List Nat :=
  u16le (i % 65536).toNat

/-- Little-endian bytes of an `int32_t` value (two's complement). -/
def i32le (i : Int) : List Nat :=
  u32le (i % 4294967296).toNat

/-! ## Data model -/

/-- Packed `TiltedValueItem` (8 bytes): `uint8_t type; int8_t scale10;
int16_t reserved; int32_t value;`. -/
structure TiltedValueItem where
  type : Nat
  scale10 : Int
  reserved : Int
  value : Int
  deriving Repr, DecidableEq

/-- In-memory bytes of one packed `TiltedValueItem`. -/
def encodeItem (it : TiltedValueItem) : List Nat :=
  [it.type % 256, i8byte it.scale10] ++ i16le it.reserved ++ i32le it.value

/-- Read one packed `TiltedValueItem` from the front of a byte region
(as dereferencing a `const TiltedValueItem*` does). -/
def parseItem (bs : List Nat) : TiltedValueItem :=
  { type := bs.getD 0 0
    scale10 := toInt8 (bs.getD 1 0)
    reserved := toInt16 (bs.getD 2 0 + 256 * bs.getD 3 0)
    value := toInt32 (bs.getD 4 0 + 256 * bs.getD 5 0 + 65536 * bs.getD 6 0 +
      16777216 * bs.getD 7 0) }

/-- Read `n` consecutive packed items (indexing `items[i]` for `i < itemCount`). -/
def parseItems : Nat → List Nat → List TiltedValueItem
  | 0, _ => []
  | n + 1, bs => parseItem bs :: parseItems n (bs.drop TILTED_ITEM_SIZE)

/-- The in-memory bytes of a packed `TiltedReadingsHeader` with the given field
values (fields reduced to their wire width, as storing into the packed struct
does). -/
def mkHeaderBytes (magic version msgType chipId interval_s nameLen itemCount : Nat) :
    List Nat :=
  u16le magic ++ [version % 256, msgType % 256] ++ u32le chipId ++ u16le interval_s ++
    [nameLen % 256, itemCount % 256]

/-- The decoded content a `TiltedReadingsView` gives access to: the header
fields, the `nameLen`-byte name slice and the `itemCount` item records the
view's pointers designate inside the validated buffer. -/
structure TiltedReadingsView where
  magic : Nat
  version : Nat
  msgType : Nat
  chipId : Nat
  interval_s : Nat
  nameLen : Nat
  itemCount : Nat
  name : List Nat
  items : List TiltedValueItem
  deriving Repr, DecidableEq

/-! ## Decoder (tilted_decode_readings_view) -/

/-- The C decoder `tilted_decode_readings_view(buf, len, out)`, with `len` the buffer's
length. Returns `some view` exactly when the C function returns `true`;
all `return false` paths collapse to `none`. The `buf == nullptr` guard has
no counterpart (a `List` is never null). -/
def tilted_decode_readings_view (buf : List Nat) : Option TiltedReadingsView :=
  if buf.length < TILTED_HEADER_SIZE then none
  else if buf.getD 0 0 + 256 * buf.getD 1 0 ≠ TILTED_MAGIC then none
  else if buf.getD 2 0 ≠ TILTED_PROTOCOL_VERSION then none
  else if buf.getD 3 0 ≠ TILTED_MSGTYPE_READINGS then none
  else if buf.getD 10 0 > TILTED_MAX_NAME_LEN then none
  else if tilted_readings_packet_size (buf.getD 10 0) (buf.getD 11 0) = 0 ∨
      buf.length ≠ tilted_readings_packet_size (buf.getD 10 0) (buf.getD 11 0) then none
  else
    some { magic := buf.getD 0 0 + 256 * buf.getD 1 0
           version := buf.getD 2 0
           msgType := buf.getD 3 0
           chipId := buf.getD 4 0 + 256 * buf.getD 5 0 + 65536 * buf.getD 6 0 +
             16777216 * buf.getD 7 0
           interval_s := buf.getD 8 0 + 256 * buf.getD 9 0
           nameLen := buf.getD 10 0
           itemCount := buf.getD 11 0
           name := (buf.drop TILTED_HEADER_SIZE).take (buf.getD 10 0)
           items := parseItems (buf.getD 11 0) (buf.drop (TILTED_HEADER_SIZE + buf.getD 10 0)) }

/-! ## Encoder (tilted_encode_readings_packet)

The C encoder declares `TiltedReadingsHeader hdr;` on the stack and assigns
`magic`, `chipId`, `interval_s`, `nameLen` and `itemCount` — but never
`hdr.version` or `hdr.msgType`. Those two header bytes are therefore copied
from indeterminate stack memory. The embedding makes that explicit with the
`uninitVersion`/`uninitMsgType` parameters: whatever those stack bytes happen
to hold is what goes on the wire. -/

/-- The C encoder `tilted_encode_readings_packet(outBuf, outBufMax, chipId, intervalSeconds,
name, nameLen, items, itemCount)` with `outBufMax = outBuf.length` (the C
contract: the capacity the caller passes is the capacity of `outBuf`).
Returns the C return value together with the buffer contents afterwards;
every failure path returns `0` before any store, leaving `outBuf` untouched.
The null-pointer guards on `outBuf`/`name`/`items` have no counterpart. -/
def tilted_encode_readings_packet (outBuf : List Nat) (chipId intervalSeconds : Nat)
    (name : List Nat) (nameLen : Nat) (items : List TiltedValueItem) (itemCount : Nat)
    (uninitVersion uninitMsgType : Nat) : Nat × List Nat :=
  if nameLen > TILTED_MAX_NAME_LEN then (0, outBuf)
  else if tilted_readings_packet_size nameLen itemCount = 0 ∨
      tilted_readings_packet_size nameLen itemCount > outBuf.length then (0, outBuf)
  else
    (tilted_readings_packet_size nameLen itemCount,
      (mkHeaderBytes TILTED_MAGIC uninitVersion uninitMsgType chipId intervalSeconds
          nameLen itemCount
        ++ name.take nameLen
        ++ (items.take itemCount).flatMap encodeItem)
        ++ outBuf.drop (tilted_readings_packet_size nameLen itemCount))

/-! ## Value helper (TiltedValueHelper::scaleAndRound, tilted_filters.h)

`lroundf` is the C99 rounding primitive: round to nearest, halfway cases away
from zero. The float products `value * 1000.0f` etc. are modelled exactly
over `ℚ`. -/

/-- C99 `lroundf`: nearest integer, halfway cases rounded away from zero. -/
def lroundf (q : ℚ) : ℤ :=
  if 0 ≤ q then ⌊q + 1 / 2⌋ else ⌈q - 1 / 2⌉

/-- The helper `TiltedValueHelper::scaleAndRound(value, scale10)`: the `switch` over the
supported exponents; the `default` branch falls back to `lroundf(value)`. -/
def scaleAndRound (value : ℚ) (scale10 : ℤ) : ℤ :=
  if scale10 = -3 then lroundf (value * 1000)
  else if scale10 = -2 then lroundf (value * 100)
  else if scale10 = -1 then lroundf (value * 10)
  else if scale10 = 0 then lroundf value
  else if scale10 = 1 then lroundf (value / 10)
  else lroundf value

/-- Modelled from the spec: round half away from zero, written as the spec
phrases it (magnitude rounded half-up, then the sign restored). Used as the
independent reference the code's rounding is compared against. -/
def roundHalfAwayFromZero (q : ℚ) : ℤ :=
  if 0 ≤ q then ⌊|q| + 1 / 2⌋ else -⌊|q| + 1 / 2⌋

/-! ## Gravity rounding (round3) -/

/-- A C cast `(int)x`: truncation toward zero. -/
def truncToInt (q : ℚ) : ℤ :=
  if 0 ≤ q then ⌊q⌋ else ⌈q⌉

/-- The function `round3` as defined in `gateway/src/main.cpp` (the copy used
on the derived gravity value): `(int)(value * 1000 + 0.5) / 1000.0`. -/
def round3 (value : ℚ) : ℚ :=
  (truncToInt (value * 1000 + 1 / 2) : ℚ) / 1000

/-- The function `round3` as defined in `gateway/src/espnow_receiver.cpp`:
`roundf(value * 1000.0f) / 1000.0f` (C99 `roundf` rounds halfway cases away
from zero, like `lroundf`). -/
def round3Espnow (value : ℚ) : ℚ :=
  (lroundf (value * 1000) : ℚ) / 1000

/-! ## Reading extraction (EspNowReceiver::onRecv) -/

/-- The JSON-shaped record `onRecv` accumulates: one optional field per
`TiltedValueType` it knows. The constant unit tags (`temp_unit = "C"` etc.)
are set exactly when the corresponding value field is, and are omitted here.
Floats are modelled as exact rationals. -/
structure Reading where
  angle : Option ℚ := none
  temp : Option ℚ := none
  aux_temp : Option ℚ := none
  battery : Option ℚ := none
  interval : Option ℤ := none
  rssi : Option ℤ := none
  deriving Repr, DecidableEq

/-- One iteration of the `switch ((TiltedValueType)it.type)` loop body of
`EspNowReceiver::onRecv`: dispatch on the type tag, fold the item into the
record; the `default` branch leaves the record unchanged. -/
def onRecvApplyItem (r : Reading) (it : TiltedValueItem) : Reading :=
  if it.type = 1 then
    { r with angle := some (if it.scale10 = -1 then (it.value : ℚ) / 10 else (it.value : ℚ)) }
  else if it.type = 2 then
    { r with temp := some (if it.scale10 = -1 then (it.value : ℚ) / 10 else (it.value : ℚ)) }
  else if it.type = 3 then
    { r with aux_temp := some (if it.scale10 = -1 then (it.value : ℚ) / 10 else (it.value : ℚ)) }
  else if it.type = 4 then
    { r with battery := some ((it.value : ℚ) / 1000) }
  else if it.type = 5 then
    { r with interval := some it.value }
  else if it.type = 6 then
    { r with rssi := some it.value }
  else r

/-- The whole extraction loop of `onRecv` over a decoded item list. -/
def onRecvExtract (items : List TiltedValueItem) : Reading :=
  items.foldl onRecvApplyItem {}

/-! ## Decode-failure taxonomy (spec side)

The spec's §4.3 validation sequence names six distinguishable failures. The
C decoder performs the six checks in that order but reports every failure as
the same `false`; this reference function returns which check fails first,
to be compared with the decoder. -/

inductive DecodeError where
  | TooShort
  | BadMagic
  | UnsupportedVersion
  | UnsupportedMessageType
  | NameTooLong
  | LengthMismatch
  deriving Repr, DecidableEq

/-- Modelled from the spec: the §4.3 validation sequence as an ordered
first-failure classifier over the raw buffer bytes. -/
def decodeErrorSpec (buf : List Nat) : Option DecodeError :=
  if buf.length < 12 then some .TooShort
  else if buf.getD 0 0 + 256 * buf.getD 1 0 ≠ TILTED_MAGIC then some .BadMagic
  else if buf.getD 2 0 ≠ TILTED_PROTOCOL_VERSION then some .UnsupportedVersion
  else if buf.getD 3 0 ≠ TILTED_MSGTYPE_READINGS then some .UnsupportedMessageType
  else if buf.getD 10 0 > TILTED_MAX_NAME_LEN then some .NameTooLong
  else if buf.length ≠ 12 + buf.getD 10 0 + 8 * buf.getD 11 0 then some .LengthMismatch
  else none

/-! ## Helper lemmas -/

theorem packet_size_eq {nameLen itemCount : Nat} (h1 : nameLen ≤ 24)
    (h2 : 12 + nameLen + 8 * itemCount ≤ 0xFFFF) :
    tilted_readings_packet_size nameLen itemCount = 12 + nameLen + 8 * itemCount := by
  unfold tilted_readings_packet_size TILTED_MAX_NAME_LEN TILTED_HEADER_SIZE TILTED_ITEM_SIZE
  split_ifs <;> omega

theorem lroundf_eq_rhaz (q : ℚ) : lroundf q = roundHalfAwayFromZero q := by
  unfold lroundf roundHalfAwayFromZero
  split_ifs with h
  · rw [abs_of_nonneg h]
  · rw [abs_of_neg (lt_of_not_le h), ← Int.ceil_neg]
    congr 1
    ring

theorem rhaz_neg (q : ℚ) : roundHalfAwayFromZero (-q) = -roundHalfAwayFromZero q := by
  unfold roundHalfAwayFromZero
  rcases lt_trichotomy q 0 with h | h | h
  · rw [if_pos (by linarith), if_neg (by linarith), abs_neg, neg_neg]
  · subst h
    norm_num
  · rw [if_neg (by linarith), if_pos (by linarith), abs_neg]

theorem lroundf_neg (q : ℚ) : lroundf (-q) = -lroundf q := by
  rw [lroundf_eq_rhaz, lroundf_eq_rhaz, rhaz_neg]

theorem getD_lt_of_bytes (buf : List Nat) (hb : ∀ b ∈ buf, b < 256) (i : Nat) :
    buf.getD i 0 < 256 := by
  by_cases h : i < buf.length
  · rw [List.getD_eq_getElem buf 0 h]
    exact hb _ (List.getElem_mem h)
  · rw [List.getD_eq_default buf 0 (by omega)]
    decide

theorem decode_isSome_iff (buf : List Nat) (h11 : buf.getD 11 0 < 256) :
    (tilted_decode_readings_view buf).isSome ↔
      (12 ≤ buf.length ∧ buf.getD 0 0 + 256 * buf.getD 1 0 = 0x544C ∧
       buf.getD 2 0 = 1 ∧ buf.getD 3 0 = 1 ∧ buf.getD 10 0 ≤ 24 ∧
       buf.length = 12 + buf.getD 10 0 + 8 * buf.getD 11 0) := by
  unfold tilted_decode_readings_view TILTED_HEADER_SIZE TILTED_MAGIC
    TILTED_PROTOCOL_VERSION TILTED_MSGTYPE_READINGS TILTED_MAX_NAME_LEN
  generalize hgl : buf.length = n
  generalize hg0 : buf.getD 0 0 = b0
  generalize hg1 : buf.getD 1 0 = b1
  generalize hg2 : buf.getD 2 0 = b2
  generalize hg3 : buf.getD 3 0 = b3
  generalize hg10 : buf.getD 10 0 = b10
  generalize hg11 : buf.getD 11 0 = b11
  rw [hg11] at h11
  split_ifs <;> (try rw [packet_size_eq (by omega) (by omega)] at *) <;>
    first | omega | (simp; omega)

theorem decodeErrorSpec_none_iff (buf : List Nat) :
    decodeErrorSpec buf = none ↔
      (12 ≤ buf.length ∧ buf.getD 0 0 + 256 * buf.getD 1 0 = 0x544C ∧
       buf.getD 2 0 = 1 ∧ buf.getD 3 0 = 1 ∧ buf.getD 10 0 ≤ 24 ∧
       buf.length = 12 + buf.getD 10 0 + 8 * buf.getD 11 0) := by
  unfold decodeErrorSpec TILTED_MAGIC TILTED_PROTOCOL_VERSION TILTED_MSGTYPE_READINGS
    TILTED_MAX_NAME_LEN
  generalize hgl : buf.length = n
  generalize hg0 : buf.getD 0 0 = b0
  generalize hg1 : buf.getD 1 0 = b1
  generalize hg2 : buf.getD 2 0 = b2
  generalize hg3 : buf.getD 3 0 = b3
  generalize hg10 : buf.getD 10 0 = b10
  generalize hg11 : buf.getD 11 0 = b11
  split_ifs <;> first | omega | (simp; omega)

/-! ## Claim theorems -/

/-- C10: for every `uint8_t` pair `(nameLen ≤ 24, itemCount)` the total
`12 + nameLen + 8·itemCount` is at most 2076, so the 16-bit-overflow
rejection branch of `tilted_readings_packet_size` is unreachable: the
function returns 0 exactly when `nameLen > 24`, and otherwise returns the
formula's value. -/
theorem c10_packet_size_total :
    ∀ nameLen itemCount : Nat, nameLen < 256 → itemCount < 256 →
      (nameLen ≤ 24 → 12 + nameLen + 8 * itemCount ≤ 2076 ∧
        tilted_readings_packet_size nameLen itemCount = 12 + nameLen + 8 * itemCount) ∧
      (tilted_readings_packet_size nameLen itemCount = 0 ↔ 24 < nameLen) := by
  intro nameLen itemCount h1 h2
  unfold tilted_readings_packet_size TILTED_MAX_NAME_LEN TILTED_HEADER_SIZE TILTED_ITEM_SIZE
  split_ifs <;> simp <;> omega

/-- Witness for C10 at the extreme `uint8_t` inputs. -/
theorem c10_witness :
    tilted_readings_packet_size 24 255 = 2076 ∧ tilted_readings_packet_size 25 255 = 0 := by
  refine ⟨?_, ?_⟩
  · have h := ((c10_packet_size_total 24 255 (by decide) (by decide)).1 (by decide)).2
    rw [h]
  · exact (c10_packet_size_total 25 255 (by decide) (by decide)).2.mpr (by decide)

/-- C5: the pinned concrete scaling cases — `scaleAndRound(23.47, -1) = 235`,
`scaleAndRound(-0.5, 0) = -1` (half away from zero, not 0),
`scaleAndRound(3.3, 0) = 3` — together with the conventions the claim states:
rounding is symmetric under sign flip at every exponent, and at every
supported exponent `s ∈ {-3,-2,-1,0,1}` the result is the value rescaled by
`10^(-s)` and rounded half away from zero. -/
theorem c5_scaleAndRound_pinned :
    scaleAndRound (2347 / 100) (-1) = 235 ∧
    scaleAndRound (-1 / 2) 0 = -1 ∧
    scaleAndRound (33 / 10) 0 = 3 ∧
    (∀ (v : ℚ) (s : ℤ), scaleAndRound (-v) s = -scaleAndRound v s) ∧
    (∀ (v : ℚ) (s : ℤ), s = -3 ∨ s = -2 ∨ s = -1 ∨ s = 0 ∨ s = 1 →
      scaleAndRound v s = roundHalfAwayFromZero (v * (10 : ℚ) ^ (-s))) := by
  refine ⟨?_, ?_, ?_, ?_, ?_⟩
  · norm_num [scaleAndRound, lroundf_eq_rhaz, roundHalfAwayFromZero, abs_of_nonneg]
  · norm_num [scaleAndRound, lroundf_eq_rhaz, roundHalfAwayFromZero, abs_of_nonneg]
  · norm_num [scaleAndRound, lroundf_eq_rhaz, roundHalfAwayFromZero, abs_of_nonneg]
  · intro v s
    simp only [scaleAndRound, neg_mul, neg_div, lroundf_neg]
    split_ifs <;> rfl
  · intro v s hs
    rcases hs with h | h | h | h | h <;> subst h <;>
      simp only [scaleAndRound, lroundf_eq_rhaz] <;> norm_num <;> ring_nf

/-- Witness for C5: the general conjuncts applied at concrete inputs. -/
theorem c5_witness :
    scaleAndRound (-(1 / 2) : ℚ) 0 = -scaleAndRound (1 / 2) 0 ∧
    scaleAndRound (1 / 4) (-2) = roundHalfAwayFromZero ((1 / 4 : ℚ) * (10 : ℚ) ^ (-(-2 : ℤ))) :=
  ⟨c5_scaleAndRound_pinned.2.2.2.1 (1 / 2) 0,
   c5_scaleAndRound_pinned.2.2.2.2 (1 / 4) (-2) (by norm_num)⟩

/-- C8: for every exponent outside the supported set `{-3,-2,-1,0,1}`,
`scaleAndRound` falls back to the `scale10 = 0` behaviour (round the value
as an integer; no general power computation). -/
theorem c8_scaleAndRound_fallback :
    ∀ (v : ℚ) (s : ℤ), s ≠ -3 → s ≠ -2 → s ≠ -1 → s ≠ 0 → s ≠ 1 →
      scaleAndRound v s = scaleAndRound v 0 := by
  intro v s h1 h2 h3 h4 h5
  have h0 : scaleAndRound v 0 = lroundf v := by norm_num [scaleAndRound]
  rw [h0]
  unfold scaleAndRound
  split_ifs <;> first | rfl | omega

/-- Witness for C8 at the unsupported exponent 2. -/
theorem c8_witness :
    scaleAndRound (123 / 10) 2 = scaleAndRound (123 / 10) 0 :=
  c8_scaleAndRound_fallback (123 / 10) 2 (by decide) (by decide) (by decide) (by decide)
    (by decide)

/-- C9 counterexample: the gravity path uses `round3` from
`gateway/src/main.cpp`, which adds 0.5 and truncates toward zero. At the
negative half-point `-0.0005` it returns `0`, while rounding half away from
zero would give `-0.001` — so `round3` is not round-half-away-from-zero for
every real input. -/
theorem c9_counterexample :
    round3 (-1 / 2000) = 0 ∧
    (roundHalfAwayFromZero ((-1 / 2000 : ℚ) * 1000) : ℚ) / 1000 = -1 / 1000 ∧
    (0 : ℚ) ≠ -1 / 1000 := by
  refine ⟨?_, ?_, by norm_num⟩
  · norm_num [round3, truncToInt]
  · norm_num [roundHalfAwayFromZero, abs_of_nonneg, abs_of_neg]

/-- C9 amended: for every non-negative input (the gravity values the code
rounds in practice) `round3` of `gateway/src/main.cpp` equals
round-half-away-from-zero of `x·1000`, divided by 1000; the (unused) `round3`
of `gateway/src/espnow_receiver.cpp`, built on `roundf`, satisfies the law
for every input. -/
theorem c9_round3_gravity :
    (∀ q : ℚ, 0 ≤ q → round3 q = (roundHalfAwayFromZero (q * 1000) : ℚ) / 1000) ∧
    (∀ q : ℚ, round3Espnow q = (roundHalfAwayFromZero (q * 1000) : ℚ) / 1000) := by
  constructor
  · intro q hq
    have h1 : (0 : ℚ) ≤ q * 1000 := by nlinarith
    unfold round3 truncToInt roundHalfAwayFromZero
    rw [if_pos (by linarith), if_pos h1, abs_of_nonneg h1]
  · intro q
    unfold round3Espnow
    rw [lroundf_eq_rhaz]

/-- Witness for C9 at the positive half-point `0.0005`. -/
theorem c9_witness :
    round3 (1 / 2000) = (roundHalfAwayFromZero ((1 / 2000 : ℚ) * 1000) : ℚ) / 1000 :=
  c9_round3_gravity.1 (1 / 2000) (by norm_num)

/-- C2 counterexample: the decoder's failures are not distinguishable. The
empty buffer violates check 1 (TooShort) and a 12-byte zero buffer violates
check 2 (BadMagic) — the spec-side classifier separates them — yet
`tilted_decode_readings_view` reports the identical failure value for both
(the C function returns the same `false`), so the first violated check does
not determine a distinct reported error. -/
theorem c2_counterexample :
    decodeErrorSpec [] = some DecodeError.TooShort ∧
    decodeErrorSpec (List.replicate 12 0) = some DecodeError.BadMagic ∧
    tilted_decode_readings_view [] = none ∧
    tilted_decode_readings_view (List.replicate 12 0) = none ∧
    tilted_decode_readings_view [] = tilted_decode_readings_view (List.replicate 12 0) := by
  refine ⟨by decide, by decide, by decide, by decide, by decide⟩

/-- C2 amended: the decoder performs the six §4.3 checks — minimum length,
magic, version, message type, name length, exact recomputed total length —
failing fast in that order, but it returns the single undifferentiated
failure value for all of them: for every byte buffer, decoding succeeds
exactly when the ordered first-failure classifier reports no error, while
which check failed first is not observable from the return value. -/
theorem c2_decode_validation :
    ∀ buf : List Nat, (∀ b ∈ buf, b < 256) →
      ((tilted_decode_readings_view buf).isSome ↔ decodeErrorSpec buf = none) := by
  intro buf hb
  exact (decode_isSome_iff buf (getD_lt_of_bytes buf hb 11)).trans
    (decodeErrorSpec_none_iff buf).symm

/-- Witness for C2 on a concrete well-formed buffer. -/
theorem c2_witness :
    (tilted_decode_readings_view
        (mkHeaderBytes 0x544C 1 1 5 7 1 1 ++ [97] ++ [99, 0, 0, 0, 1, 0, 0, 0])).isSome ↔
      decodeErrorSpec
        (mkHeaderBytes 0x544C 1 1 5 7 1 1 ++ [97] ++ [99, 0, 0, 0, 1, 0, 0, 0]) = none :=
  c2_decode_validation (mkHeaderBytes 0x544C 1 1 5 7 1 1 ++ [97] ++ [99, 0, 0, 0, 1, 0, 0, 0])
    (by decide)

/-- C3: for every valid input — name at most 24 bytes, total size within the
16-bit wire limit and within the destination capacity — the encoder returns
exactly `12 + nameLen + 8·itemCount`; and every buffer the decoder accepts
satisfies `12 + nameLen + 8·itemCount = buffer length` for the decoded
header fields. -/
theorem c3_size_invariant :
    (∀ (outBuf name : List Nat) (chipId interval : Nat) (items : List TiltedValueItem)
        (uv um : Nat),
      name.length ≤ 24 →
      12 + name.length + 8 * items.length ≤ 0xFFFF →
      12 + name.length + 8 * items.length ≤ outBuf.length →
      (tilted_encode_readings_packet outBuf chipId interval name name.length items
          items.length uv um).1 = 12 + name.length + 8 * items.length) ∧
    (∀ (buf : List Nat) (v : TiltedReadingsView),
      tilted_decode_readings_view buf = some v →
      12 + v.nameLen + 8 * v.itemCount = buf.length) := by
  constructor
  · intro outBuf name chipId interval items uv um h1 h2 h3
    have hsz := packet_size_eq h1 h2
    unfold tilted_encode_readings_packet TILTED_MAX_NAME_LEN
    rw [if_neg (by omega), if_neg (by rw [hsz]; omega)]
    exact hsz
  · intro buf v h
    unfold tilted_decode_readings_view TILTED_HEADER_SIZE TILTED_MAX_NAME_LEN at h
    split_ifs at h with h1 h2 h3 h4 h5 h6
    have h6' : tilted_readings_packet_size (buf.getD 10 0) (buf.getD 11 0) ≠ 0 ∧
        buf.length = tilted_readings_packet_size (buf.getD 10 0) (buf.getD 11 0) := by
      tauto
    obtain rfl : v = _ := (Option.some.inj h).symm
    unfold tilted_readings_packet_size TILTED_HEADER_SIZE TILTED_ITEM_SIZE
      TILTED_MAX_NAME_LEN at h6'
    simp only []
    split_ifs at h6' <;> omega

/-- Witness for C3: both halves at a concrete packet. -/
theorem c3_witness :
    (tilted_encode_readings_packet (List.replicate 16 0) 1 10 [97] 1 [] 0 0 0).1 =
      12 + 1 + 8 * 0 ∧
    12 + 1 + 8 * 1 =
      (mkHeaderBytes 0x544C 1 1 5 7 1 1 ++ [97] ++ [99, 0, 0, 0, 1, 0, 0, 0]).length := by
  constructor
  · exact c3_size_invariant.1 (List.replicate 16 0) [97] 1 10 [] 0 0 (by decide) (by decide)
      (by decide)
  · have h := c3_size_invariant.2
      (mkHeaderBytes 0x544C 1 1 5 7 1 1 ++ [97] ++ [99, 0, 0, 0, 1, 0, 0, 0])
      { magic := 0x544C, version := 1, msgType := 1, chipId := 5, interval_s := 7,
        nameLen := 1, itemCount := 1, name := [97],
        items := [{ type := 99, scale10 := 0, reserved := 0, value := 1 }] }
      (by decide)
    simpa using h

/-- C6: every rejection of the encoder — name too long, invalid/overflowing
computed size, or size exceeding the destination capacity — returns 0 and
leaves the destination buffer untouched: no byte is written on any failure
path. -/
theorem c6_encode_atomic :
    ∀ (outBuf name : List Nat) (chipId interval nameLen itemCount uv um : Nat)
      (items : List TiltedValueItem),
      (24 < nameLen ∨ tilted_readings_packet_size nameLen itemCount = 0 ∨
        outBuf.length < tilted_readings_packet_size nameLen itemCount) →
      tilted_encode_readings_packet outBuf chipId interval name nameLen items itemCount
        uv um = (0, outBuf) := by
  intro outBuf name chipId interval nameLen itemCount uv um items h
  unfold tilted_encode_readings_packet TILTED_MAX_NAME_LEN
  split_ifs with h1 h2
  · rfl
  · rfl
  · omega

/-- Witness for C6: a 25-byte name is rejected with the buffer returned
verbatim. -/
theorem c6_witness :
    tilted_encode_readings_packet [1, 2, 3] 0 0 (List.replicate 25 97) 25 [] 0 0 0 =
      (0, [1, 2, 3]) :=
  c6_encode_atomic [1, 2, 3] (List.replicate 25 97) 0 0 25 0 0 0 [] (by decide)

/-- C1: the round-trip fails because the C encoder never assigns
`hdr.version` and `hdr.msgType`; those two header bytes are copied from
indeterminate stack memory. On a valid input (chipId 1, interval 10, name
of one byte, no items, 16-byte destination) the encoder reports success
(13 bytes), yet when the indeterminate bytes are anything other than
`(1, 1)` — here 0, as for zeroed stack memory — decoding the produced
packet fails outright; had the encoder written the two constants (last
conjunct), the same packet would decode. -/
theorem c1_roundtrip_bug :
    (tilted_encode_readings_packet (List.replicate 16 0) 1 10 [97] 1 [] 0 0 0).1 = 13 ∧
    tilted_decode_readings_view
      (((tilted_encode_readings_packet (List.replicate 16 0) 1 10 [97] 1 [] 0 0 0).2).take 13)
      = none ∧
    (tilted_decode_readings_view
      (((tilted_encode_readings_packet (List.replicate 16 0) 1 10 [97] 1 [] 0 1 1).2).take 13)).isSome
      = true := by
  refine ⟨by decide, by decide, by decide⟩

/-- C4 counterexample: for a Tilt item carried with `scale10 = -2` and
`value = 100`, the claim's law `physical = value · 10^scale10` demands 1,
but `onRecv` extracts the raw 100 — the receiver honors no exponent other
than −1. -/
theorem c4_counterexample :
    (onRecvExtract [{ type := 1, scale10 := -2, reserved := 0, value := 100 }]).angle =
      some 100 ∧
    (100 : ℚ) * (10 : ℚ) ^ (-2 : ℤ) = 1 ∧ (100 : ℚ) ≠ 1 := by
  refine ⟨?_, by norm_num, by norm_num⟩
  norm_num [onRecvExtract, onRecvApplyItem]

/-- C4 amended: for the scaled types (Tilt, Temp, AuxTemp) the extracted
value equals `value · 10^scale10` only when `scale10 = -1`; for every other
wire exponent the raw integer value is taken unscaled. -/
theorem c4_extraction_scaling :
    ∀ (r : Reading) (s v rsv : ℤ),
      (onRecvApplyItem r { type := 1, scale10 := s, reserved := rsv, value := v }).angle =
        some (if s = -1 then (v : ℚ) * (10 : ℚ) ^ (-1 : ℤ) else (v : ℚ)) ∧
      (onRecvApplyItem r { type := 2, scale10 := s, reserved := rsv, value := v }).temp =
        some (if s = -1 then (v : ℚ) * (10 : ℚ) ^ (-1 : ℤ) else (v : ℚ)) ∧
      (onRecvApplyItem r { type := 3, scale10 := s, reserved := rsv, value := v }).aux_temp =
        some (if s = -1 then (v : ℚ) * (10 : ℚ) ^ (-1 : ℤ) else (v : ℚ)) := by
  intro r s v rsv
  refine ⟨?_, ?_, ?_⟩ <;> simp only [onRecvApplyItem] <;> norm_num <;> split_ifs <;>
    norm_num [zpow_neg_one] <;> ring

theorem onRecvApplyItem_unknown (r : Reading) (u : TiltedValueItem)
    (h : ¬(1 ≤ u.type ∧ u.type ≤ 6)) : onRecvApplyItem r u = r := by
  unfold onRecvApplyItem
  split_ifs <;> first | rfl | omega

theorem header_getD (m v g c i nl ic : Nat) (rest : List Nat) :
    (mkHeaderBytes m v g c i nl ic ++ rest).getD 0 0 = m % 256 ∧
    (mkHeaderBytes m v g c i nl ic ++ rest).getD 1 0 = m / 256 % 256 ∧
    (mkHeaderBytes m v g c i nl ic ++ rest).getD 2 0 = v % 256 ∧
    (mkHeaderBytes m v g c i nl ic ++ rest).getD 3 0 = g % 256 ∧
    (mkHeaderBytes m v g c i nl ic ++ rest).getD 10 0 = nl % 256 ∧
    (mkHeaderBytes m v g c i nl ic ++ rest).getD 11 0 = ic % 256 ∧
    (mkHeaderBytes m v g c i nl ic ++ rest).length = 12 + rest.length := by
  refine ⟨rfl, rfl, rfl, rfl, rfl, rfl, ?_⟩
  simp [mkHeaderBytes, u16le, u32le]
  omega

/-- C7: unknown type tags are tolerated. Folding the extraction switch over
an item list containing an item whose tag is outside 1..6 yields exactly the
record obtained without that item (it is ignored, all known items still
land); and any correctly-headed buffer whose item region holds arbitrary
bytes — in particular unknown type tags — decodes successfully, since the
decoder never inspects item contents. -/
theorem c7_unknown_type_tolerance :
    (∀ (r : Reading) (xs ys : List TiltedValueItem) (u : TiltedValueItem),
      ¬(1 ≤ u.type ∧ u.type ≤ 6) →
      List.foldl onRecvApplyItem r (xs ++ u :: ys) =
        List.foldl onRecvApplyItem r (xs ++ ys)) ∧
    (∀ (chipId interval k : Nat) (name itemBytes : List Nat),
      name.length ≤ 24 → itemBytes.length = 8 * k → k < 256 →
      (tilted_decode_readings_view
        (mkHeaderBytes 0x544C 1 1 chipId interval name.length k ++ (name ++ itemBytes))).isSome
        = true) := by
  constructor
  · intro r xs ys u hu
    induction xs generalizing r with
    | nil => simp [List.foldl_cons, onRecvApplyItem_unknown r u hu]
    | cons a as ih => simp [List.foldl_cons, ih]
  · intro chipId interval k name itemBytes h1 h2 h3
    obtain ⟨g0, g1, g2, g3, g10, g11, glen⟩ :=
      header_getD 0x544C 1 1 chipId interval name.length k (name ++ itemBytes)
    refine (decode_isSome_iff _ ?_).mpr ?_
    · rw [g11]
      omega
    · refine ⟨?_, ?_, ?_, ?_, ?_, ?_⟩
      · rw [glen]
        omega
      · rw [g0, g1]
      · rw [g2]
      · rw [g3]
      · rw [g10]
        omega
      · rw [glen, g10, g11]
        simp only [List.length_append]
        omega

/-- Witness for C7: an item with tag 7 between two known items is ignored,
and a concrete packet whose single item record has tag 99 decodes. -/
theorem c7_witness :
    List.foldl onRecvApplyItem ({} : Reading)
        ([{ type := 1, scale10 := -1, reserved := 0, value := 234 }] ++
          { type := 7, scale10 := 0, reserved := 0, value := 5 } ::
          [{ type := 4, scale10 := 0, reserved := 0, value := 3301 }]) =
      List.foldl onRecvApplyItem ({} : Reading)
        ([{ type := 1, scale10 := -1, reserved := 0, value := 234 }] ++
          [{ type := 4, scale10 := 0, reserved := 0, value := 3301 }]) ∧
    (tilted_decode_readings_view
      (mkHeaderBytes 0x544C 1 1 5 7 1 1 ++ ([97] ++ [99, 0, 0, 0, 1, 0, 0, 0]))).isSome
      = true :=
  ⟨c7_unknown_type_tolerance.1 {} _ _ _ (by decide),
   c7_unknown_type_tolerance.2 5 7 1 [97] [99, 0, 0, 0, 1, 0, 0, 0] (by decide) (by decide)
     (by decide)⟩
